import Mathlib

/-!
Shallow embedding of `src/zk_watcher/zk_watcher.py` (zk_watcher daemon):
the bounded command runner (`Command.run`), the per-service watcher loop
(`Watcher.run` / `Watcher.stop` / `Watcher.update`) and the supervisor's
watcher construction (`WatcherDaemon.run`), together with theorems settling
the specification claims about them.
-/

namespace ZkWatcher

/-! ## Bounded command runner (`Command.run`, lines 261-306)

`Command.run(timeout)` spawns a worker thread whose body calls
`subprocess.Popen(...)` and then `communicate()` (which reaps the child).
The environment decides one of three outcomes for a given invocation: the
`Popen` call raises `OSError` (launch failure, `self._process` stays `None`),
the child finishes within the timeout, or the child is still running when
`thread.join(timeout)` expires.  In the last case `terminate()` is attempted
(any exception swallowed by the bare `except`) and an unbounded `thread.join()`
follows; the returncode observed afterwards is whatever the reaped child
reports (normally `-SIGTERM`). -/

/-- Environment-chosen outcome of one `Command.run` invocation.
For `timedOut`, the `Bool` records whether the `terminate()` call raised
(the code swallows such an exception), and the `Int` is the child's
returncode observed after the unbounded join. -/
inductive CmdOutcome where
  | launchFail : CmdOutcome
  | finished : Int → CmdOutcome
  | timedOut : Bool → Int → CmdOutcome
deriving DecidableEq

/-- Value returned by `Command.run` (lines 301-306): the child's returncode
when a process object exists, and `1` when `Popen` failed and
`self._process` is still `None`. -/
def commandRet : CmdOutcome → Int
  | CmdOutcome.launchFail => 1
  | CmdOutcome.finished code => code
  | CmdOutcome.timedOut _ code => code

/-- Health boolean the watcher passes to `update` (lines 200-208):
`if ret == 0: self.update(state=True) else: self.update(state=False)`. -/
def checkRegisterState (o : CmdOutcome) : Bool :=
  if commandRet o == 0 then true else false

/-- One observable step of `Command.run`'s control flow. -/
inductive CmdStep where
  | popenOk : CmdStep
  | popenFailed : CmdStep
  | communicateDone : CmdStep
  | joinedInTime : CmdStep
  | joinTimedOut : CmdStep
  | terminateOk : CmdStep
  | terminateFailedSwallowed : CmdStep
  | joinUnbounded : CmdStep
  | returned : Int → CmdStep
deriving DecidableEq

/-- Ordered trace of the steps `Command.run` executes for each outcome,
read off lines 274-306: the worker thread runs `Popen` then `communicate()`
(the reap); the caller joins with the timeout; on expiry it attempts
`terminate()` (exception swallowed) and joins without a bound, which returns
only after `communicate()` has reaped the child; finally the returncode
(or `1` with no process object) is returned. -/
def commandRunTrace : CmdOutcome → List CmdStep
  | CmdOutcome.launchFail =>
      [CmdStep.popenFailed, CmdStep.joinedInTime, CmdStep.returned 1]
  | CmdOutcome.finished code =>
      [CmdStep.popenOk, CmdStep.communicateDone, CmdStep.joinedInTime,
       CmdStep.returned code]
  | CmdOutcome.timedOut termFails code =>
      [CmdStep.popenOk, CmdStep.joinTimedOut,
       if termFails then CmdStep.terminateFailedSwallowed else CmdStep.terminateOk,
       CmdStep.communicateDone, CmdStep.joinUnbounded, CmdStep.returned code]

/-- Whether a step is the reap of the child (`communicate()` returning). -/
def isCommunicateDone : CmdStep → Bool
  | CmdStep.communicateDone => true
  | _ => false

/-- Whether a step is a `terminate()` attempt (successful or swallowed). -/
def isTermStep : CmdStep → Bool
  | CmdStep.terminateOk => true
  | CmdStep.terminateFailedSwallowed => true
  | _ => false

/-- Whether a step is the unbounded `thread.join()`. -/
def isJoinUnbounded : CmdStep → Bool
  | CmdStep.joinUnbounded => true
  | _ => false

/-- The child is reaped strictly before `Command.run` returns: a
`communicateDone` step occurs before the final step of the trace. -/
def reapBeforeReturn (tr : List CmdStep) : Bool :=
  tr.dropLast.any isCommunicateDone

/-- Some `terminate()` attempt occurs in the trace. -/
def terminateAttempted (tr : List CmdStep) : Bool :=
  tr.any isTermStep

/-- An unbounded join occurs strictly after the first `terminate()` attempt. -/
def unboundedJoinAfterTerm (tr : List CmdStep) : Bool :=
  ((tr.dropWhile fun s => ! isTermStep s).tail).any isJoinUnbounded

/-- C1 (amended): the health boolean reported to the registry is `true` iff
the value returned by `Command.run` is `0`: exit code `0` yields
`healthy=true`; a non-zero exit code, a launch failure (which makes
`Command.run` return `1`), and a timeout whose post-terminate returncode is
non-zero (the normal case, `-SIGTERM`) all yield `healthy=false` — but a
timeout alone does not: only the final returncode decides, as the
counterexample shows. -/
theorem health_iff_exit_success :
    (∀ o : CmdOutcome, checkRegisterState o = true ↔ commandRet o = 0)
    ∧ checkRegisterState (CmdOutcome.finished 0) = true
    ∧ (∀ code : Int, code ≠ 0 → checkRegisterState (CmdOutcome.finished code) = false)
    ∧ checkRegisterState CmdOutcome.launchFail = false
    ∧ (∀ (tf : Bool) (code : Int), code ≠ 0 →
        checkRegisterState (CmdOutcome.timedOut tf code) = false) := by
  refine ⟨?_, ?_, ?_, ?_, ?_⟩
  · intro o
    by_cases h : commandRet o = 0 <;> simp [checkRegisterState, h]
  · rfl
  · intro code h
    simp [checkRegisterState, commandRet, h]
  · rfl
  · intro tf code h
    simp [checkRegisterState, commandRet, h]

/-- Witness for `health_iff_exit_success` at concrete inputs: exit code `7`
and a timed-out check reaped with returncode `-15` both report unhealthy. -/
theorem health_iff_exit_success_witness :
    checkRegisterState (CmdOutcome.finished 7) = false
    ∧ checkRegisterState (CmdOutcome.timedOut false (-15)) = false :=
  ⟨health_iff_exit_success.2.2.1 7 (by decide),
   health_iff_exit_success.2.2.2.2 false (-15) (by decide)⟩

/-- C1 counterexample: a timed-out check whose child is reaped with
returncode `0` — reachable when the command traps SIGTERM and exits `0`
during the unbounded join (or finishes with `0` in the race just as
`thread.join(timeout)` expires and the swallowed `terminate()` misses) —
makes `Command.run` return `0`, so line 200's `if ret == 0` registers
`healthy=true`: a timeout does NOT always yield a register call with
`healthy=false`. -/
theorem timeout_can_register_healthy :
    commandRet (CmdOutcome.timedOut false 0) = 0
    ∧ checkRegisterState (CmdOutcome.timedOut false 0) = true := by
  decide

/-- C6: on a timeout, `Command.run` attempts `terminate()` (a failure of
which is swallowed: the trace continues, and the returncode is still
returned), then performs an unbounded join, so that the child is reaped
(`communicate()` returns) before `Command.run` returns; under normal
completion the child is likewise reaped before return, with no terminate. -/
theorem command_run_reaps (tf : Bool) (code tcode : Int) :
    reapBeforeReturn (commandRunTrace (CmdOutcome.finished code)) = true
    ∧ reapBeforeReturn (commandRunTrace (CmdOutcome.timedOut tf tcode)) = true
    ∧ terminateAttempted (commandRunTrace (CmdOutcome.timedOut tf tcode)) = true
    ∧ unboundedJoinAfterTerm (commandRunTrace (CmdOutcome.timedOut tf tcode)) = true
    ∧ terminateAttempted (commandRunTrace (CmdOutcome.finished code)) = false
    ∧ commandRet (CmdOutcome.timedOut true tcode) = tcode := by
  cases tf <;>
    exact ⟨rfl, rfl, rfl, rfl, rfl, rfl⟩

/-! ## Tokenization and stream disposition of the `Popen` call (lines 274-281)

`Command.run`'s worker thread launches
`subprocess.Popen(self._cmd.split(' '), shell=False, stdout=open('/dev/null', 'w'), stderr=None, stdin=None)`.
`pySplitSpace` embeds Python's `str.split(' ')` on the command's characters:
splitting at every single space, keeping empty pieces between consecutive
separators (so `''.split(' ') == ['']` and `'a  b'.split(' ') == ['a', '', 'b']`). -/

/-- Python `str.split(' ')` on a character list (`self._cmd.split(' ')`). -/
def pySplitSpace : List Char → List (List Char)
  | [] => [[]]
  | c :: rest =>
      if c = ' ' then [] :: pySplitSpace rest
      else (c :: (pySplitSpace rest).headD []) :: (pySplitSpace rest).tail

/-- Rejoin tokens with a single space between consecutive tokens. -/
def joinSpaces : List (List Char) → List Char
  | [] => []
  | [t] => t
  | t :: ts => t ++ ' ' :: joinSpaces ts

theorem pySplitSpace_ne_nil (s : List Char) : pySplitSpace s ≠ [] := by
  cases s with
  | nil => simp [pySplitSpace]
  | cons c rest =>
    by_cases hc : c = ' ' <;> simp [pySplitSpace, hc]

theorem pySplitSpace_no_space (s : List Char) :
    ∀ t ∈ pySplitSpace s, ' ' ∉ t := by
  induction s with
  | nil =>
    intro t ht
    simp [pySplitSpace] at ht
    simp [ht]
  | cons c rest ih =>
    intro t ht
    by_cases hc : c = ' '
    · rw [pySplitSpace, if_pos hc] at ht
      rcases List.mem_cons.mp ht with h | h
      · simp [h]
      · exact ih t h
    · rw [pySplitSpace, if_neg hc] at ht
      obtain ⟨p, ps', hps⟩ := List.exists_cons_of_ne_nil (pySplitSpace_ne_nil rest)
      rw [hps, List.headD_cons, List.tail_cons] at ht
      rcases List.mem_cons.mp ht with h | h
      · subst h
        intro hmem
        rcases List.mem_cons.mp hmem with h1 | h1
        · exact hc h1.symm
        · exact ih p (by rw [hps]; exact List.mem_cons_self p ps') h1
      · exact ih t (by rw [hps]; exact List.mem_cons.mpr (Or.inr h))

theorem joinSpaces_pySplitSpace (s : List Char) :
    joinSpaces (pySplitSpace s) = s := by
  induction s with
  | nil => rfl
  | cons c rest ih =>
    obtain ⟨p, ps', hps⟩ := List.exists_cons_of_ne_nil (pySplitSpace_ne_nil rest)
    by_cases hc : c = ' '
    · rw [pySplitSpace, if_pos hc, hps]
      show ([] : List Char) ++ ' ' :: joinSpaces (p :: ps') = c :: rest
      rw [List.nil_append, ← hps, ih, hc]
    · rw [pySplitSpace, if_neg hc, hps, List.headD_cons, List.tail_cons]
      cases ps' with
      | nil =>
        show c :: p = c :: rest
        rw [hps] at ih
        have hp : joinSpaces [p] = p := rfl
        rw [hp] at ih
        rw [ih]
      | cons q ts =>
        show (c :: p) ++ ' ' :: joinSpaces (q :: ts) = c :: rest
        rw [hps] at ih
        have hj : joinSpaces (p :: q :: ts) = p ++ ' ' :: joinSpaces (q :: ts) := rfl
        rw [hj] at ih
        rw [List.cons_append, ih]

/-- Where one of the child's standard streams is connected. -/
inductive StreamDest where
  | inherit : StreamDest
  | devnullFile : StreamDest
  | pipe : StreamDest
deriving DecidableEq

/-- The arguments of a `subprocess.Popen` invocation that the claims are
about: argv, the `shell` flag, and the three stream dispositions. -/
structure PopenCall where
  argv : List (List Char)
  shell : Bool
  stdoutDest : StreamDest
  stderrDest : StreamDest
  stdinDest : StreamDest
deriving DecidableEq

/-- The `Popen` call made by `Command.run` (lines 275-280):
`Popen(self._cmd.split(' '), shell=False, stdout=open('/dev/null', 'w'), stderr=None, stdin=None)`.
In `subprocess`, passing `None` for a stream makes the child inherit the
parent's stream; `open('/dev/null', 'w')` redirects stdout to `/dev/null`. -/
def commandPopen (cmd : List Char) : PopenCall :=
  { argv := pySplitSpace cmd
    shell := false
    stdoutDest := StreamDest.devnullFile
    stderrDest := StreamDest.inherit
    stdinDest := StreamDest.inherit }

/-- C5 counterexample: for the concrete command `pgrep memcached`, the claim
"standard output and standard error are both discarded" is false: `stderr=None`
makes the child inherit the parent's standard error rather than discard it. -/
theorem popen_stderr_not_discarded :
    ¬ ((commandPopen ("pgrep memcached".toList)).stdoutDest = StreamDest.devnullFile
       ∧ (commandPopen ("pgrep memcached".toList)).stderrDest = StreamDest.devnullFile) :=
  fun h => StreamDest.noConfusion h.2

/-- C5 (amended): for every invocation of the bounded command runner, the
child's standard output is discarded to `/dev/null`, its standard error is
inherited from the parent (not discarded), and no stream — stdout, stderr or
stdin — is a pipe into the parent's memory. -/
theorem popen_stream_dispositions (cmd : List Char) :
    (commandPopen cmd).stdoutDest = StreamDest.devnullFile
    ∧ (commandPopen cmd).stderrDest = StreamDest.inherit
    ∧ (commandPopen cmd).stdoutDest ≠ StreamDest.pipe
    ∧ (commandPopen cmd).stderrDest ≠ StreamDest.pipe
    ∧ (commandPopen cmd).stdinDest ≠ StreamDest.pipe :=
  ⟨rfl, rfl, fun h => StreamDest.noConfusion h,
   fun h => StreamDest.noConfusion h, fun h => StreamDest.noConfusion h⟩

/-- C10: the configured command string is tokenized by splitting on single
space characters (rejoining the tokens with single spaces reconstructs the
command, and no token ever contains a space — so an argument containing a
space cannot be expressed) and the child is executed with `shell=False`, so
shell syntax is never interpreted: quotes stay literal characters of the
tokens, as the concrete example shows. -/
theorem command_tokenization :
    (∀ cmd : List Char, (commandPopen cmd).shell = false)
    ∧ (∀ cmd : List Char, (commandPopen cmd).argv = pySplitSpace cmd)
    ∧ (∀ s t : List Char, t ∈ pySplitSpace s → ' ' ∉ t)
    ∧ (∀ s : List Char, joinSpaces (pySplitSpace s) = s)
    ∧ pySplitSpace ("echo 'a b'".toList)
        = ["echo".toList, "'a".toList, "b'".toList] :=
  ⟨fun _ => rfl, fun _ => rfl, pySplitSpace_no_space,
   joinSpaces_pySplitSpace, by decide⟩

/-- Witness for `command_tokenization` at a concrete input: the first token
of `pgrep memcached` contains no space. -/
theorem command_tokenization_witness : ' ' ∉ ("pgrep".toList) :=
  command_tokenization.2.2.1 ("pgrep memcached".toList) ("pgrep".toList) (by decide)

/-! ## Watcher loop and stop (lines 182-242) as a two-thread interleaving machine

`Watcher.run` executes, on its own thread, the loop
`while not event.is_set(): if time.time() - last_checked > refresh: run check;
update; last_checked = time.time(); event.wait(1)` with `last_checked = 0`
initially.  `Watcher.stop` executes, on the caller's (daemon) thread,
`event.set()` followed by `update(False)`.  The machine below interleaves the
two threads under an arbitrary schedule (a list of booleans choosing which
thread performs its next atomic step) and records every attempted
`register` call (`sr.set`) in a trace. -/

/-- Which code path issued a `register` (`sr.set`) call. -/
inductive RegSource where
  | check : RegSource
  | stopCall : RegSource
deriving DecidableEq

/-- One attempted `register` call: the health boolean passed, the issuing
code path, and whether the registry collaborator's `set` succeeded. -/
structure RegEvent where
  healthy : Bool
  source : RegSource
  ok : Bool
deriving DecidableEq

/-- Program counter of the watcher thread inside `Watcher.run`:
at the loop guard, in flight inside `Command.run` (completion of that step
also performs the `update` call), about to set `last_checked`, in the
`event.wait(1)` sleep, or out of the loop. -/
inductive WPc where
  | guard : WPc
  | inCheck : WPc
  | postCheck : WPc
  | sleep : WPc
  | exited : WPc
deriving DecidableEq

/-- Program counter of the `stop()` caller: about to `event.set()`, about to
call `update(False)`, or done. -/
inductive SPc where
  | setEvt : SPc
  | updFalse : SPc
  | sdone : SPc
deriving DecidableEq

/-- Environment data for one check: how long the command runs, its
`Command.run` outcome, and whether the registry `set` for it succeeds. -/
structure CheckSpec where
  dur : Int
  outcome : CmdOutcome
  regOk : Bool

/-- Fixed parameters of one watcher execution: the refresh interval
(`int(refresh)`), the environment's data for the n-th check, and whether the
registry `set` made by `stop()` succeeds. -/
structure Params where
  refresh : Int
  outcomes : Nat → CheckSpec
  stopRegOk : Bool

/-- Interleaved state of the watcher thread and the `stop()` caller. -/
structure Config where
  wpc : WPc
  spc : SPc
  evt : Bool
  now : Int
  lastChecked : Int
  nChecks : Nat
  trace : List RegEvent
deriving DecidableEq

/-- One atomic step of the watcher thread (`Watcher.run`).  At the guard it
exits if the event is set, otherwise starts a check exactly when
`time.time() - last_checked > self._refresh`; completing a check advances
time by the command's duration and appends the check's `register` call with
the health boolean of `checkRegisterState`; then `last_checked` is set to the
current time and the thread sleeps one tick. -/
def stepW (P : Params) (c : Config) : Config :=
  match c.wpc with
  | WPc.guard =>
      if c.evt then { c with wpc := WPc.exited }
      else if P.refresh < c.now - c.lastChecked then { c with wpc := WPc.inCheck }
      else { c with wpc := WPc.sleep }
  | WPc.inCheck =>
      let spec := P.outcomes c.nChecks
      { c with wpc := WPc.postCheck,
               now := c.now + spec.dur,
               nChecks := c.nChecks + 1,
               trace := c.trace ++
                 [⟨checkRegisterState spec.outcome, RegSource.check, spec.regOk⟩] }
  | WPc.postCheck => { c with wpc := WPc.sleep, lastChecked := c.now }
  | WPc.sleep => { c with wpc := WPc.guard, now := c.now + 1 }
  | WPc.exited => c

/-- One atomic step of the `stop()` caller (`Watcher.stop`):
`self._event.set()` followed immediately by `self.update(False)` on the
caller's own thread. -/
def stepS (P : Params) (c : Config) : Config :=
  match c.spc with
  | SPc.setEvt => { c with evt := true, spc := SPc.updFalse }
  | SPc.updFalse =>
      { c with spc := SPc.sdone,
               trace := c.trace ++ [⟨false, RegSource.stopCall, P.stopRegOk⟩] }
  | SPc.sdone => c

/-- Run the interleaving: each schedule entry picks the thread that performs
its next atomic step (`true` = watcher thread, `false` = stop caller). -/
def runSched (P : Params) : List Bool → Config → Config
  | [], c => c
  | b :: rest, c => runSched P rest (if b then stepW P c else stepS P c)

/-- Initial state of `Watcher.run`: at the guard, event unset, and
`last_checked = 0` (line 189); `t0` is the wall-clock time at thread start. -/
def initConfig (t0 : Int) : Config :=
  { wpc := WPc.guard, spc := SPc.setEvt, evt := false, now := t0,
    lastChecked := 0, nChecks := 0, trace := [] }

theorem stepW_guard (P : Params) (c : Config) (h : c.wpc = WPc.guard) :
    stepW P c = if c.evt then { c with wpc := WPc.exited }
      else if P.refresh < c.now - c.lastChecked then { c with wpc := WPc.inCheck }
      else { c with wpc := WPc.sleep } := by
  unfold stepW
  rw [h]

theorem stepW_inCheck (P : Params) (c : Config) (h : c.wpc = WPc.inCheck) :
    stepW P c = { c with
                  wpc := WPc.postCheck,
                  now := c.now + (P.outcomes c.nChecks).dur,
                  nChecks := c.nChecks + 1,
                  trace := c.trace ++
                    [⟨checkRegisterState (P.outcomes c.nChecks).outcome,
                      RegSource.check, (P.outcomes c.nChecks).regOk⟩] } := by
  unfold stepW
  rw [h]

theorem stepW_postCheck (P : Params) (c : Config) (h : c.wpc = WPc.postCheck) :
    stepW P c = { c with wpc := WPc.sleep, lastChecked := c.now } := by
  unfold stepW
  rw [h]

theorem stepW_sleep (P : Params) (c : Config) (h : c.wpc = WPc.sleep) :
    stepW P c = { c with wpc := WPc.guard, now := c.now + 1 } := by
  unfold stepW
  rw [h]

theorem stepW_exited (P : Params) (c : Config) (h : c.wpc = WPc.exited) :
    stepW P c = c := by
  unfold stepW
  rw [h]

theorem stepS_setEvt (P : Params) (c : Config) (h : c.spc = SPc.setEvt) :
    stepS P c = { c with evt := true, spc := SPc.updFalse } := by
  unfold stepS
  rw [h]

theorem stepS_updFalse (P : Params) (c : Config) (h : c.spc = SPc.updFalse) :
    stepS P c = { c with
                  spc := SPc.sdone,
                  trace := c.trace ++ [⟨false, RegSource.stopCall, P.stopRegOk⟩] } := by
  unfold stepS
  rw [h]

theorem stepS_sdone (P : Params) (c : Config) (h : c.spc = SPc.sdone) :
    stepS P c = c := by
  unfold stepS
  rw [h]

/-- Concrete parameters used in counterexamples and witnesses: refresh 15,
every check runs 5 seconds, exits 0 and registers successfully. -/
def stopParams : Params :=
  { refresh := 15, outcomes := fun _ => ⟨5, CmdOutcome.finished 0, true⟩,
    stopRegOk := true }

/-- Concrete guard-state configuration with elapsed time exactly equal to
the refresh interval of `stopParams`. -/
def cfgAtEquality : Config :=
  { wpc := WPc.guard, spc := SPc.setEvt, evt := false, now := 115,
    lastChecked := 100, nChecks := 0, trace := [] }

/-- C2 counterexample: with refresh interval 15, at a tick where exactly 15
seconds have elapsed since the last check (`now - lastCheckedAt = refresh`),
the loop guard `time.time() - last_checked > self._refresh` (line 192) is
false, so the Watcher does NOT start a check — it moves to the sleep step —
contradicting the claimed `>=` comparison. -/
theorem tick_at_equality_no_check :
    cfgAtEquality.now - cfgAtEquality.lastChecked = stopParams.refresh
    ∧ (stepW stopParams cfgAtEquality).wpc = WPc.sleep
    ∧ WPc.sleep ≠ WPc.inCheck := by
  decide

/-- C2 (amended): on each scheduling tick (a guard step with the stop event
unset), a check is started exactly when `now - lastCheckedAt` is strictly
greater than `refreshIntervalSeconds`; when the elapsed time equals the
interval exactly, the Watcher does not start a check on that tick. -/
theorem check_started_iff_strict (P : Params) (c : Config)
    (hw : c.wpc = WPc.guard) (he : c.evt = false) :
    ((stepW P c).wpc = WPc.inCheck ↔ P.refresh < c.now - c.lastChecked)
    ∧ (c.now - c.lastChecked = P.refresh → (stepW P c).wpc = WPc.sleep) := by
  rw [stepW_guard P c hw, he]
  constructor
  · by_cases hlt : P.refresh < c.now - c.lastChecked <;> simp [hlt]
  · intro hEq
    have hlt : ¬ P.refresh < c.now - c.lastChecked := by omega
    simp [hlt]

/-- Witness for `check_started_iff_strict` at the concrete configuration
`cfgAtEquality`: the tick with elapsed time equal to the interval sleeps. -/
theorem check_started_iff_strict_witness :
    (stepW stopParams cfgAtEquality).wpc = WPc.sleep :=
  (check_started_iff_strict stopParams cfgAtEquality rfl rfl).2 (by decide)

/-- C9: `last_checked` is initialized to `0` (line 189), so on the very first
loop iteration the guard `time.time() - 0 > refresh` already holds whenever
the thread's start time exceeds the refresh interval (as any realistic epoch
timestamp does), and the Watcher starts its first check immediately without
waiting `refreshIntervalSeconds`. -/
theorem first_check_immediate (P : Params) (t0 : Int) (h : P.refresh < t0) :
    (initConfig t0).lastChecked = 0
    ∧ (stepW P (initConfig t0)).wpc = WPc.inCheck := by
  refine ⟨rfl, ?_⟩
  rw [stepW_guard P (initConfig t0) rfl]
  simp only [initConfig]
  simp [h]

/-- Witness for `first_check_immediate` at a concrete epoch start time. -/
theorem first_check_immediate_witness :
    (initConfig 1700000000).lastChecked = 0
    ∧ (stepW stopParams (initConfig 1700000000)).wpc = WPc.inCheck :=
  first_check_immediate stopParams 1700000000 (by decide)

/-- C3 (amended): `stop()` issues the final `register(..., healthy=false)`
call immediately on the calling thread (`self._event.set()` then
`self.update(False)`, lines 221-224), whatever the watcher thread is doing —
in particular while a check is in flight — so that call may precede the
in-flight check's own register call; the in-flight check nevertheless still
completes and appends its own register call afterwards (the check-completion
step never consults the stop event). -/
theorem stop_deregisters_immediately :
    (∀ (P : Params) (c : Config), c.spc = SPc.updFalse →
        (stepS P c).trace = c.trace ++ [⟨false, RegSource.stopCall, P.stopRegOk⟩]
        ∧ (stepS P c).wpc = c.wpc ∧ (stepS P c).now = c.now
        ∧ (stepS P c).spc = SPc.sdone)
    ∧ (∀ (P : Params) (c : Config), c.wpc = WPc.inCheck →
        (stepW P c).trace = c.trace ++
          [⟨checkRegisterState (P.outcomes c.nChecks).outcome, RegSource.check,
            (P.outcomes c.nChecks).regOk⟩]
        ∧ (stepW P c).wpc = WPc.postCheck) := by
  constructor
  · intro P c h
    rw [stepS_updFalse P c h]
    exact ⟨rfl, rfl, rfl, rfl⟩
  · intro P c h
    rw [stepW_inCheck P c h]
    exact ⟨rfl, rfl⟩

/-- Concrete mid-check configuration (watcher in flight, stop already
requested) used by witnesses. -/
def cfgInFlight : Config :=
  { wpc := WPc.inCheck, spc := SPc.updFalse, evt := true, now := 100,
    lastChecked := 0, nChecks := 0, trace := [] }

/-- Witness for `stop_deregisters_immediately` at `cfgInFlight`. -/
theorem stop_deregisters_immediately_witness :
    (stepS stopParams cfgInFlight).trace =
      cfgInFlight.trace ++ [⟨false, RegSource.stopCall, stopParams.stopRegOk⟩]
    ∧ (stepW stopParams cfgInFlight).wpc = WPc.postCheck :=
  ⟨(stop_deregisters_immediately.1 stopParams cfgInFlight rfl).1,
   (stop_deregisters_immediately.2 stopParams cfgInFlight rfl).2⟩

/-- C3 counterexample: an execution in which `stop()` runs to completion
while the first check is in flight.  The register-call trace of this run is
`[(healthy=false, from stop), (healthy=true, from check)]`: the final
deregistration call occurs strictly BEFORE the in-flight check's own
register call, refuting "in every execution the final unhealthy report is
ordered after the in-flight check's register call". -/
theorem stop_before_inflight_register :
    ((runSched stopParams [true, false, false, true] (initConfig 100)).trace.map
        RegEvent.source = [RegSource.stopCall, RegSource.check])
    ∧ ((runSched stopParams [true, false, false, true] (initConfig 100)).trace.map
        RegEvent.healthy = [false, true]) := by
  decide

/-- C8 counterexample: an execution in which `stop()` is called once while a
(successful) check is in flight.  The watcher reaches its exit state, but the
LAST register call of the run is the in-flight check's `healthy=true` call:
the single `healthy=false` call made by `stop()` is not the final register
call before the Watcher stops, refuting "exactly one final register call
with healthy=false is made before the Watcher reaches Stopped". -/
theorem last_register_not_unhealthy :
    ((runSched stopParams [true, false, false, true, true, true, true]
        (initConfig 100)).wpc = WPc.exited)
    ∧ ((runSched stopParams [true, false, false, true, true, true, true]
        (initConfig 100)).trace.getLast? =
          some ⟨true, RegSource.check, true⟩) := by
  decide

/-! ## Registry-error containment (`Watcher.update`, lines 227-242) -/

/-- Outcome of `self._sr.set(...)`: the registry collaborator either succeeds
or raises, rendered as `Except`. -/
def srSet (ok : Bool) : Except String Unit :=
  if ok then Except.ok () else Except.error "could not update path"

/-- `Watcher.update`: the `try/except` around `sr.set` — success logs and
returns `True`; a raised exception is caught, logged and turned into the
return value `False`.  No exception escapes: the embedding's return type is
`Bool`, not `Except`. -/
def update (ok : Bool) : Bool :=
  match srSet ok with
  | Except.ok _ => true
  | Except.error _ => false

/-- The control portion of a watcher configuration: everything except the
trace of register calls. -/
structure LoopCtl where
  wpc : WPc
  now : Int
  lastChecked : Int
  evt : Bool
  nChecks : Nat
deriving DecidableEq

def ctlOf (c : Config) : LoopCtl :=
  ⟨c.wpc, c.now, c.lastChecked, c.evt, c.nChecks⟩

/-- C7: a failing registry `set` is caught inside `Watcher.update` and
becomes the return value `False` (never an escaping exception); the watcher
step's control state (program counter, clock, `last_checked`, event,
check count) is identical for any two parameter sets that agree on
everything except registry-call outcomes, so a registration failure never
stops or alters the scheduling loop; and after a check, `last_checked` is
set to the check's completion time unconditionally, with the loop
continuing to its sleep step. -/
theorem registry_failure_contained :
    (update true = true ∧ update false = false)
    ∧ (∀ (P Q : Params) (c : Config), P.refresh = Q.refresh →
        (∀ n, (P.outcomes n).dur = (Q.outcomes n).dur
          ∧ (P.outcomes n).outcome = (Q.outcomes n).outcome) →
        ctlOf (stepW P c) = ctlOf (stepW Q c))
    ∧ (∀ (P : Params) (c : Config), c.wpc = WPc.postCheck →
        (stepW P c).lastChecked = c.now ∧ (stepW P c).wpc = WPc.sleep) := by
  refine ⟨⟨rfl, rfl⟩, ?_, ?_⟩
  · intro P Q c hr hn
    cases hw : c.wpc
    case guard => rw [stepW_guard P c hw, stepW_guard Q c hw, hr]
    case inCheck =>
      rw [stepW_inCheck P c hw, stepW_inCheck Q c hw]
      simp [ctlOf, (hn c.nChecks).1]
    case postCheck => rw [stepW_postCheck P c hw, stepW_postCheck Q c hw]
    case sleep => rw [stepW_sleep P c hw, stepW_sleep Q c hw]
    case exited => rw [stepW_exited P c hw, stepW_exited Q c hw]
  · intro P c h
    rw [stepW_postCheck P c h]
    exact ⟨rfl, rfl⟩

/-- Same parameters as `stopParams` except that every registry call —
the per-check one and the one made by `stop()` — fails. -/
def stopParamsRegFail : Params :=
  { refresh := 15, outcomes := fun _ => ⟨5, CmdOutcome.finished 0, false⟩,
    stopRegOk := false }

/-- Witness for `registry_failure_contained` at concrete inputs: the check
step from `cfgInFlight` has the same control result whether the registry
calls succeed (`stopParams`) or all fail (`stopParamsRegFail`), and the
post-check step sets `last_checked` to the current clock. -/
theorem registry_failure_contained_witness :
    ctlOf (stepW stopParams cfgInFlight) = ctlOf (stepW stopParamsRegFail cfgInFlight)
    ∧ (stepW stopParams { cfgInFlight with wpc := WPc.postCheck }).lastChecked =
        ({ cfgInFlight with wpc := WPc.postCheck } : Config).now :=
  ⟨registry_failure_contained.2.1 stopParams stopParamsRegFail cfgInFlight rfl
      (fun _ => ⟨rfl, rfl⟩),
   (registry_failure_contained.2.2 stopParams
      { cfgInFlight with wpc := WPc.postCheck } rfl).1⟩

/-! ## Counting register calls across arbitrary interleavings (for C8) -/

/-- Number of register calls in a trace issued by the given code path. -/
def countSrc (src : RegSource) (tr : List RegEvent) : Nat :=
  tr.countP (fun e => e.source == src)

theorem countSrc_append (src : RegSource) (tr : List RegEvent) (e : RegEvent) :
    countSrc src (tr ++ [e]) =
      countSrc src tr + (if e.source = src then 1 else 0) := by
  unfold countSrc
  rw [List.countP_append]
  by_cases h : e.source = src <;> simp [List.countP_cons, h]

/-- `1` while a check is in flight, else `0`. -/
def wpcInd : WPc → Nat
  | WPc.inCheck => 1
  | _ => 0

/-- `1` while the `stop()` caller has not yet made its `update(False)` call,
else `0`. -/
def spcInd : SPc → Nat
  | SPc.sdone => 0
  | _ => 1

theorem stepW_evt (P : Params) (c : Config) (h : c.evt = true) :
    (stepW P c).evt = true := by
  cases hw : c.wpc
  case guard => rw [stepW_guard P c hw]; simp [h]
  case inCheck => rw [stepW_inCheck P c hw]; simpa using h
  case postCheck => rw [stepW_postCheck P c hw]; simpa using h
  case sleep => rw [stepW_sleep P c hw]; simpa using h
  case exited => rw [stepW_exited P c hw]; exact h

theorem stepS_evt (P : Params) (c : Config) (h : c.evt = true) :
    (stepS P c).evt = true := by
  cases hs : c.spc
  case setEvt => rw [stepS_setEvt P c hs]
  case updFalse => rw [stepS_updFalse P c hs]; simpa using h
  case sdone => rw [stepS_sdone P c hs]; exact h

theorem stepW_count_check (P : Params) (c : Config) (h : c.evt = true) :
    countSrc RegSource.check (stepW P c).trace + wpcInd (stepW P c).wpc
      ≤ countSrc RegSource.check c.trace + wpcInd c.wpc := by
  cases hw : c.wpc
  case guard => rw [stepW_guard P c hw]; simp [h, wpcInd]
  case inCheck =>
    rw [stepW_inCheck P c hw]
    simp [countSrc_append, wpcInd]
  case postCheck => rw [stepW_postCheck P c hw]; simp [wpcInd]
  case sleep => rw [stepW_sleep P c hw]; simp [wpcInd]
  case exited => rw [stepW_exited P c hw, hw]

theorem stepS_count_check (P : Params) (c : Config) :
    countSrc RegSource.check (stepS P c).trace + wpcInd (stepS P c).wpc
      ≤ countSrc RegSource.check c.trace + wpcInd c.wpc := by
  cases hs : c.spc
  case setEvt => rw [stepS_setEvt P c hs]
  case updFalse =>
    rw [stepS_updFalse P c hs]
    simp [countSrc_append]
  case sdone => rw [stepS_sdone P c hs]

theorem check_count_after_stop (P : Params) :
    ∀ (sched : List Bool) (c : Config), c.evt = true →
      countSrc RegSource.check (runSched P sched c).trace
        ≤ countSrc RegSource.check c.trace + wpcInd c.wpc := by
  intro sched
  induction sched with
  | nil =>
    intro c _
    simp only [runSched]
    exact Nat.le_add_right _ _
  | cons b rest ih =>
    intro c h
    cases b
    case true =>
      show countSrc RegSource.check (runSched P rest (stepW P c)).trace ≤ _
      exact le_trans (le_trans (ih (stepW P c) (stepW_evt P c h))
        (Nat.le_refl _)) (stepW_count_check P c h)
    case false =>
      show countSrc RegSource.check (runSched P rest (stepS P c)).trace ≤ _
      exact le_trans (ih (stepS P c) (stepS_evt P c h)) (stepS_count_check P c)

theorem stepW_count_stop (P : Params) (c : Config) :
    countSrc RegSource.stopCall (stepW P c).trace + spcInd (stepW P c).spc
      = countSrc RegSource.stopCall c.trace + spcInd c.spc := by
  cases hw : c.wpc
  case guard =>
    rw [stepW_guard P c hw]
    split
    · rfl
    · split <;> rfl
  case inCheck =>
    rw [stepW_inCheck P c hw]
    simp [countSrc_append]
  case postCheck => rw [stepW_postCheck P c hw]
  case sleep => rw [stepW_sleep P c hw]
  case exited => rw [stepW_exited P c hw]

theorem stepS_count_stop (P : Params) (c : Config) :
    countSrc RegSource.stopCall (stepS P c).trace + spcInd (stepS P c).spc
      = countSrc RegSource.stopCall c.trace + spcInd c.spc := by
  cases hs : c.spc
  case setEvt => rw [stepS_setEvt P c hs]; rfl
  case updFalse =>
    rw [stepS_updFalse P c hs]
    simp [countSrc_append, spcInd]
  case sdone => rw [stepS_sdone P c hs, hs]

theorem stop_count_invariant (P : Params) :
    ∀ (sched : List Bool) (c : Config),
      countSrc RegSource.stopCall (runSched P sched c).trace
          + spcInd (runSched P sched c).spc
        = countSrc RegSource.stopCall c.trace + spcInd c.spc := by
  intro sched
  induction sched with
  | nil => intro c; rfl
  | cons b rest ih =>
    intro c
    cases b
    case true =>
      show countSrc RegSource.stopCall (runSched P rest (stepW P c)).trace
          + spcInd (runSched P rest (stepW P c)).spc = _
      rw [ih (stepW P c), stepW_count_stop P c]
    case false =>
      show countSrc RegSource.stopCall (runSched P rest (stepS P c)).trace
          + spcInd (runSched P rest (stepS P c)).spc = _
      rw [ih (stepS P c), stepS_count_stop P c]

theorem stepW_stop_unhealthy (P : Params) (c : Config)
    (h : ∀ e ∈ c.trace, e.source = RegSource.stopCall → e.healthy = false) :
    ∀ e ∈ (stepW P c).trace, e.source = RegSource.stopCall → e.healthy = false := by
  cases hw : c.wpc
  case guard =>
    rw [stepW_guard P c hw]
    split
    · exact h
    · split <;> exact h
  case inCheck =>
    rw [stepW_inCheck P c hw]
    intro e he hsrc
    rcases List.mem_append.mp he with hmem | hmem
    · exact h e hmem hsrc
    · rw [List.mem_singleton.mp hmem] at hsrc
      exact RegSource.noConfusion hsrc
  case postCheck => rw [stepW_postCheck P c hw]; exact h
  case sleep => rw [stepW_sleep P c hw]; exact h
  case exited => rw [stepW_exited P c hw]; exact h

theorem stepS_stop_unhealthy (P : Params) (c : Config)
    (h : ∀ e ∈ c.trace, e.source = RegSource.stopCall → e.healthy = false) :
    ∀ e ∈ (stepS P c).trace, e.source = RegSource.stopCall → e.healthy = false := by
  cases hs : c.spc
  case setEvt => rw [stepS_setEvt P c hs]; exact h
  case updFalse =>
    rw [stepS_updFalse P c hs]
    intro e he hsrc
    rcases List.mem_append.mp he with hmem | hmem
    · exact h e hmem hsrc
    · rw [List.mem_singleton.mp hmem]
  case sdone => rw [stepS_sdone P c hs]; exact h

theorem run_stop_unhealthy (P : Params) :
    ∀ (sched : List Bool) (c : Config),
      (∀ e ∈ c.trace, e.source = RegSource.stopCall → e.healthy = false) →
      ∀ e ∈ (runSched P sched c).trace,
        e.source = RegSource.stopCall → e.healthy = false := by
  intro sched
  induction sched with
  | nil => intro c h; exact h
  | cons b rest ih =>
    intro c h
    cases b
    case true =>
      show ∀ e ∈ (runSched P rest (stepW P c)).trace, _
      exact ih (stepW P c) (stepW_stop_unhealthy P c h)
    case false =>
      show ∀ e ∈ (runSched P rest (stepS P c)).trace, _
      exact ih (stepS P c) (stepS_stop_unhealthy P c h)

/-- C8 (amended): for every interleaving of the watcher thread with a single
`stop()` call: (a) once the stop event is set, the number of check-issued
register calls grows by at most one — only an in-flight check (if any) still
completes; no new checks are started; (b) in every run from the initial
state in which the `stop()` call has completed, exactly one stop-issued
register call was made, and (c) every stop-issued register call in any run
carries `healthy=false`.  (The stop-issued unhealthy call need not be the
final register call: an in-flight check's own call may follow it, as the
counterexample run shows.) -/
theorem stop_guarantees :
    (∀ (P : Params) (sched : List Bool) (c : Config), c.evt = true →
        countSrc RegSource.check (runSched P sched c).trace
          ≤ countSrc RegSource.check c.trace + wpcInd c.wpc)
    ∧ (∀ (P : Params) (sched : List Bool) (t0 : Int),
        (runSched P sched (initConfig t0)).spc = SPc.sdone →
        countSrc RegSource.stopCall (runSched P sched (initConfig t0)).trace = 1)
    ∧ (∀ (P : Params) (sched : List Bool) (t0 : Int),
        ∀ e ∈ (runSched P sched (initConfig t0)).trace,
          e.source = RegSource.stopCall → e.healthy = false) := by
  refine ⟨fun P => check_count_after_stop P, ?_, ?_⟩
  · intro P sched t0 h
    have hinv := stop_count_invariant P sched (initConfig t0)
    rw [h] at hinv
    simpa [initConfig, countSrc, spcInd] using hinv
  · intro P sched t0
    refine run_stop_unhealthy P sched (initConfig t0) ?_
    intro e he
    simp [initConfig] at he

/-- Witness for `stop_guarantees` at concrete inputs: from a stopped-event
state one watcher step adds no check registers beyond the in-flight bound;
the concrete stop-mid-check run contains exactly one stop-issued register
call, and that concrete stop-issued event is unhealthy. -/
theorem stop_guarantees_witness :
    countSrc RegSource.check
        (runSched stopParams [true] cfgInFlight).trace
      ≤ countSrc RegSource.check cfgInFlight.trace + wpcInd cfgInFlight.wpc
    ∧ countSrc RegSource.stopCall
        (runSched stopParams [true, false, false, true, true, true, true]
          (initConfig 100)).trace = 1
    ∧ (⟨false, RegSource.stopCall, true⟩ : RegEvent).healthy = false :=
  ⟨stop_guarantees.1 stopParams [true] cfgInFlight rfl,
   stop_guarantees.2.1 stopParams [true, false, false, true, true, true, true]
      100 (by decide),
   stop_guarantees.2.2 stopParams [true, false, false, true, true, true, true]
      100 ⟨false, RegSource.stopCall, true⟩ (by decide) rfl⟩

/-! ## Watcher construction by the daemon (`WatcherDaemon.run`, lines 134-142) -/

/-- One config section as consumed by `WatcherDaemon.run` via
`self._config.get(service, ...)` (all values are strings in `ConfigParser`;
`zookeeper_data` is the section's configured key/value mapping). -/
structure ServiceConfig where
  cmd : String
  refresh : String
  service_port : String
  zookeeper_path : String
  zookeeper_data : List (String × String)
deriving DecidableEq

/-- The constructor arguments a `Watcher` stores (lines 161-174). -/
structure WatcherArgs where
  service : String
  service_port : String
  command : String
  path : String
  data : List (String × String)
  refresh : String
deriving DecidableEq

/-- `WatcherDaemon.run` constructs each `Watcher` from the service's config
section — but passes `data={}` (line 140), a hard-coded empty mapping,
instead of the section's `zookeeper_data`. -/
def mkWatcher (service : String) (cfg : ServiceConfig) : WatcherArgs :=
  { service := service,
    service_port := cfg.service_port,
    command := cfg.cmd,
    path := cfg.zookeeper_path,
    data := [],
    refresh := cfg.refresh }

/-- Payload of every register call a watcher makes: `Watcher.update`
(line 235) calls `self._sr.set(self._fullpath, self._data, state)`, so the
payload is the watcher's stored `_data`. -/
def registerPayload (w : WatcherArgs) : List (String × String) := w.data

/-- Concrete config section with a non-empty `zookeeper_data`, as in the
module docstring's example (`zookeeper_data: foo=bar`). -/
def memcacheCfg : ServiceConfig :=
  { cmd := "pgrep memcached", refresh := "30", service_port := "11211",
    zookeeper_path := "/services/prod-uswest1-mc",
    zookeeper_data := [("foo", "bar")] }

/-- C4 counterexample: for a service configured with
`zookeeper_data = {foo: bar}`, the payload of the watcher's register calls
is `{}`, not the configured mapping: `WatcherDaemon.run` discards
`zookeeper_data`. -/
theorem payload_not_configured_data :
    registerPayload (mkWatcher "memcache" memcacheCfg) ≠
      memcacheCfg.zookeeper_data := by
  decide

/-- C4 (amended): the payload passed in every register call is the empty
mapping, whatever `zookeeper_data` the service's config section holds: the
daemon constructs every watcher with `data={}` and the watcher passes that
stored `_data` to every `sr.set` call. -/
theorem payload_always_empty (service : String) (cfg : ServiceConfig) :
    registerPayload (mkWatcher service cfg) = [] := rfl

end ZkWatcher
